import Mathlib

/-!
Shallow embedding of the yt2audi processing core.

This file embeds the behaviourally relevant parts of the yt2audi code base:

* `Splitter` (src/yt2audi/core/splitter.py): `get_file_size_gb`,
  `split_video`, `compress_to_size`, `handle_size_exceed`;
* encoder selection (src/yt2audi/core/gpu_detector.py):
  `select_best_encoder` over a probed capability set;
* output-path prediction (src/yt2audi/core/converter.py):
  `Converter.get_output_path`, together with `sanitize_filename`
  (src/yt2audi/utils/paths.py);
* the pipeline (src/yt2audi/core/pipeline.py):
  `ProcessingPipeline.process_one` and `ProcessingPipeline.run_batch`.

External collaborators (ffprobe/ffmpeg subprocesses, the filesystem,
yt-dlp extraction and download, the USB manager, the progress hooks fired
by the external tools) are modelled as oracle inputs collected in
environment structures; the control flow, arithmetic, and string handling
are translated from the Python source.  Python floats are modelled as
exact rationals, Python `int(...)` truncation as `pyInt`, and a raised
exception as the `Except.error` case carrying the message.
-/

namespace YT2Audi

/-- Python `int(x)` on a float/rational: truncation toward zero. -/
def pyInt (q : ℚ) : ℤ := if q < 0 then ⌈q⌉ else ⌊q⌋

/-! ## Path helpers (pathlib fragments used by the code)

`pathlib.Path` operations used by the source, on plain strings:
a path is a `/`-separated string; `stem`/`suffix` split the final
component at its last dot (a dot at position 0 yields no suffix). -/

/-- Split a character list at every occurrence of `sep`. -/
def splitOnChar (sep : Char) : List Char → List (List Char)
  | [] => [[]]
  | x :: rest =>
    let r := splitOnChar sep rest
    if x = sep then [] :: r
    else
      match r with
      | [] => [[x]]
      | h :: t => (x :: h) :: t

/-- Rejoin path components with `/`. -/
def joinComponents : List (List Char) → List Char
  | [] => []
  | [c] => c
  | c :: rest => c ++ '/' :: joinComponents rest

/-- Final component of a path (`Path.name`). -/
def pathNameChars (p : String) : List Char :=
  ((splitOnChar '/' p.data).getLastD [])

/-- Directory part of a path (`Path.parent`, as used in joins here). -/
def pathParent (p : String) : String :=
  String.mk (joinComponents ((splitOnChar '/' p.data).dropLast))

/-- Split a file name at its last dot; a dot at index 0 gives no suffix. -/
def splitAtLastDot (name : List Char) : List Char × List Char :=
  match name.reverse.findIdx? (fun c => c = '.') with
  | some ri =>
    let i := name.length - 1 - ri
    if i = 0 then (name, []) else (name.take i, name.drop i)
  | none => (name, [])

/-- Python `Path.stem`: final component without its last extension. -/
def pathStem (p : String) : String :=
  String.mk (splitAtLastDot (pathNameChars p)).1

/-- Python `Path.suffix`: the last extension of the final component (with dot). -/
def pathSuffix (p : String) : String :=
  String.mk (splitAtLastDot (pathNameChars p)).2

/-- Join a directory and a file name. -/
def joinPath (dir name : String) : String :=
  if dir = "" then name else dir ++ "/" ++ name

/-- Python `Path.with_suffix`: replace the extension of the final component. -/
def withSuffix (p suffix : String) : String :=
  joinPath (pathParent p) (pathStem p ++ suffix)

/-- Python `Path.with_stem`: replace the stem of the final component. -/
def withStem (p newStem : String) : String :=
  joinPath (pathParent p) (newStem ++ pathSuffix p)

/-! ## Splitter (src/yt2audi/core/splitter.py)

The filesystem is an oracle pair `fsExists : String → Bool` /
`fsSize : String → ℕ` (byte sizes, consulted only for existing files);
the ffprobe/ffmpeg subprocess results are collected in `SplitEnv`. -/

/-- Results of the external ffprobe/ffmpeg invocations made by
`split_video` and `compress_to_size`.

* `probeOk` / `probeDuration` / `probeBitrate`: the ffprobe call of
  `split_video` (`duration=` / `bitrate=` lines, absent keys = `none`);
* `ffmpegOk`: exit status of the ffmpeg segment run; `parts`: the sorted
  glob of produced chunks;
* `cprobeOk` / `cprobeDuration`: the ffprobe call of `compress_to_size`
  (subprocess + `float(...)` parse success, and the parsed value);
* `cffmpegOk`: exit status of the ffmpeg compress run; `coutExists`:
  whether the output file exists afterwards. -/
structure SplitEnv where
  probeOk : Bool
  probeDuration : Option ℚ
  probeBitrate : Option ℚ
  ffmpegOk : Bool
  parts : List String
  cprobeOk : Bool
  cprobeDuration : ℚ
  cffmpegOk : Bool
  coutExists : Bool

/-- Model of `Splitter.get_file_size_gb`: `st_size / 1024**3`, `0.0` for a missing
path. -/
def getFileSizeGb (fsExists : String → Bool) (fsSize : String → ℕ)
    (p : String) : ℚ :=
  if fsExists p then (fsSize p : ℚ) / 1024 ^ 3 else 0

/-- The bitrate used by `split_video`: the probed container bitrate, or,
when that is non-positive, the estimate `st_size * 8 / duration` when the
probed duration is positive, or the fixed `1_000_000` bps fallback. -/
def splitBitrate (probed : ℚ) (sizeBytes : ℕ) (duration : ℚ) : ℚ :=
  if probed ≤ 0 then
    if duration > 0 then (sizeBytes * 8 : ℚ) / duration else 1000000
  else probed

/-- The per-segment duration `split_video` passes to the ffmpeg segment
muxer: `max(1.0, (max_size_bytes * 8) / bitrate * 0.95)`. -/
def splitTargetDuration (maxSizeBytes : ℤ) (bitrate : ℚ) : ℚ :=
  max 1 ((maxSizeBytes * 8 : ℚ) / bitrate * (95 / 100))

/-- Outcome of `Splitter.split_video`: the returned chunk list (or the
raised `ConversionError`), together with the `-segment_time` value that
was passed to ffmpeg, when the ffmpeg command was built at all. -/
structure SplitResult where
  result : Except String (List String)
  segTime : Option ℚ

/-- Model of `Splitter.split_video` (src/yt2audi/core/splitter.py, lines 31-174).

Checks existence, short-circuits when the file already fits, probes
duration and bitrate, derives the segment duration, invokes ffmpeg, and
collects the produced chunks. -/
def splitVideo (fsExists : String → Bool) (fsSize : String → ℕ)
    (env : SplitEnv) (inputPath : String) (maxSizeGb : ℚ) : SplitResult :=
  if fsExists inputPath = false then
    ⟨.error ("Input file not found: " ++ inputPath), none⟩
  else if getFileSizeGb fsExists fsSize inputPath ≤ maxSizeGb then
    ⟨.ok [inputPath], none⟩
  else if env.probeOk = false then
    ⟨.error ("Failed to split " ++ inputPath), none⟩
  else
    let maxSizeBytes := pyInt (maxSizeGb * 1024 ^ 3)
    let duration := env.probeDuration.getD 0
    let bitrate := splitBitrate (env.probeBitrate.getD 0) (fsSize inputPath) duration
    let targetDuration := splitTargetDuration maxSizeBytes bitrate
    if env.ffmpegOk = false then
      ⟨.error "FFmpeg splitting failed", some targetDuration⟩
    else if env.parts.isEmpty then
      ⟨.error ("Failed to split " ++ inputPath ++
        ": Splitting completed but no output files found"), some targetDuration⟩
    else
      ⟨.ok env.parts, some targetDuration⟩

/-- The video bitrate (kbps) `compress_to_size` passes to ffmpeg:
`max(500, int((target_size_bytes * 8 / duration) / 1000 * reduction) - 128)`. -/
def compressVideoKbps (targetSizeGb duration reductionFactor : ℚ) : ℤ :=
  let targetSizeBytes := targetSizeGb * 1024 ^ 3
  let targetBitrateBps := targetSizeBytes * 8 / duration
  let targetBitrateKbps := pyInt (targetBitrateBps / 1000 * reductionFactor)
  max 500 (targetBitrateKbps - 128)

/-- Outcome of `Splitter.compress_to_size`: the output path (or the
raised `ConversionError`), plus the `-b:v` / `-b:a` kbps values passed to
ffmpeg when the command was built. -/
structure CompressResult where
  result : Except String String
  videoKbps : Option ℤ
  audioKbps : Option ℤ

/-- Model of `Splitter.compress_to_size` (src/yt2audi/core/splitter.py,
lines 176-300): probe the duration, derive the constant video bitrate
with a fixed 128 kbps audio reserve and a 500 kbps video floor, invoke
ffmpeg, and check the output exists.  A zero probed duration raises in
Python (float division by zero) and is mapped to the wrapped
`ConversionError`. -/
def compressToSize (fsExists : String → Bool) (env : SplitEnv)
    (inputPath : String) (targetSizeGb reductionFactor : ℚ)
    (outputPath : Option String) : CompressResult :=
  if fsExists inputPath = false then
    ⟨.error ("Input file not found: " ++ inputPath), none, none⟩
  else
    let outPath := outputPath.getD (withStem inputPath (pathStem inputPath ++ "_compressed"))
    if env.cprobeOk = false then
      ⟨.error ("Failed to compress " ++ inputPath), none, none⟩
    else if env.cprobeDuration = 0 then
      ⟨.error ("Failed to compress " ++ inputPath ++ ": division by zero"), none, none⟩
    else
      let videoKbps := compressVideoKbps targetSizeGb env.cprobeDuration reductionFactor
      if env.cffmpegOk = false then
        ⟨.error "FFmpeg compression failed", some videoKbps, some 128⟩
      else if env.coutExists = false then
        ⟨.error "Compression completed but output file not found",
          some videoKbps, some 128⟩
      else ⟨.ok outPath, some videoKbps, some 128⟩

/-- The four size-remediation policies (`OnSizeExceed` in
src/yt2audi/models/profile.py). -/
inductive OnSizeExceed
  | split
  | compress
  | warn
  | skip
deriving DecidableEq

/-- Model of `Splitter.handle_size_exceed` (src/yt2audi/core/splitter.py,
lines 302-372): no-op fast path when the file fits, otherwise dispatch on
the configured policy. -/
def handleSizeExceed (fsExists : String → Bool) (fsSize : String → ℕ)
    (env : SplitEnv) (inputPath : String) (maxSizeGb : ℚ)
    (action : OnSizeExceed) (outputDir : Option String) :
    Except String (List String) :=
  if getFileSizeGb fsExists fsSize inputPath ≤ maxSizeGb then .ok [inputPath]
  else
    match action with
    | .split => (splitVideo fsExists fsSize env inputPath maxSizeGb).result
    | .compress =>
      let outPath := outputDir.map (fun d =>
        d ++ "/" ++ pathStem inputPath ++ "_compressed" ++ pathSuffix inputPath)
      (compressToSize fsExists env inputPath maxSizeGb (8 / 10) outPath).result.map
        (fun p => [p])
    | .warn => .ok [inputPath]
    | .skip => .ok []

/-! ## Encoder selection (src/yt2audi/core/gpu_detector.py)

The hardware probes (`detect_available_gpus`) and the
`ffmpeg -encoders` capability query (`check_ffmpeg_encoder`) are
oracles: the detected `GPUInfo` list and a `String → Bool` predicate. -/

/-- The encoder identifiers (`EncoderType` in
src/yt2audi/models/profile.py). -/
inductive EncoderType
  | nvencH264
  | amfH264
  | qsvH264
  | libx264
deriving DecidableEq

/-- The `.value` of each `EncoderType` member. -/
def EncoderType.value : EncoderType → String
  | .nvencH264 => "h264_nvenc"
  | .amfH264 => "h264_amf"
  | .qsvH264 => "h264_qsv"
  | .libx264 => "libx264"

/-- GPU vendors (`GPUVendor` in gpu_detector.py). -/
inductive GPUVendor
  | nvidia
  | amd
  | intel
  | unknown
deriving DecidableEq

/-- A `GPUInfo` as produced by the vendor probes. -/
structure GPUInfo where
  vendor : GPUVendor
  name : String
  hasEncoder : Bool

/-- The `vendor_encoder_map` dict of `select_best_encoder`. -/
def vendorEncoderMap : GPUVendor → Option EncoderType
  | .nvidia => some .nvencH264
  | .amd => some .amfH264
  | .intel => some .qsvH264
  | .unknown => none

/-- The `available_encoders` set built by `select_best_encoder`:
hardware encoders implied by the detected GPUs and confirmed by the
ffmpeg capability check, plus `libx264` when confirmed. -/
def availableEncoders (gpus : List GPUInfo)
    (checkFfmpegEncoder : String → Bool) : List EncoderType :=
  (gpus.filterMap (fun gpu =>
    if gpu.hasEncoder then
      match vendorEncoderMap gpu.vendor with
      | some enc =>
        if checkFfmpegEncoder enc.value then some enc else none
      | none => none
    else none))
  ++ (if checkFfmpegEncoder EncoderType.libx264.value then
        [EncoderType.libx264] else [])

/-- Model of `select_best_encoder` (gpu_detector.py, lines 190-245): the first
priority-list entry in the available set, else the `libx264` fallback,
else the `GPUDetectionError`. -/
def selectBestEncoder (encoderPriority : List EncoderType)
    (gpus : List GPUInfo) (checkFfmpegEncoder : String → Bool) :
    Except String EncoderType :=
  let avail := availableEncoders gpus checkFfmpegEncoder
  match encoderPriority.find? (fun e => decide (e ∈ avail)) with
  | some e => .ok e
  | none =>
    if EncoderType.libx264 ∈ avail then .ok EncoderType.libx264
    else .error "No video encoder available (FFmpeg not found or misconfigured)"

/-! ## Output-path prediction (src/yt2audi/core/converter.py)

`Converter.get_output_path` builds the predicted output file name from
the yt-dlp info dict, the profile's filename template and container.
The info dict is an association list of string keys and values; Python
`str.format` on the profile's template string is a pure function of the
template context, modelled as `filenameTemplate` (where `none` models a
`format` exception and triggers the fallback name). -/

/-- A yt-dlp info dict (the string-valued fields the code reads). -/
abbrev Info := List (String × String)

/-- Lookup `info_dict.get(k)`. -/
def lookupInfo (info : Info) (k : String) : Option String :=
  (info.find? (fun kv => kv.1 == k)).map (fun kv => kv.2)

/-- Python `\s` on the ASCII range (after the ASCII filter, only these
can occur). -/
def isPySpace (c : Char) : Bool :=
  c = ' ' ∨ c = '\t' ∨ c = '\n' ∨ c = '\r' ∨ c = '\x0b' ∨ c = '\x0c'

/-- The characters removed by `sanitize_filename`. -/
def isInvalidFilenameChar (c : Char) : Bool :=
  c = '<' ∨ c = '>' ∨ c = ':' ∨ c = '\"' ∨ c = '/' ∨ c = '\\' ∨
    c = '|' ∨ c = '?' ∨ c = '*'

/-- Python `re.sub(r"\s+", " ", s)`: collapse whitespace runs to single spaces.
The flag records whether the previous character was whitespace. -/
def collapseSpaces : Bool → List Char → List Char
  | _, [] => []
  | prevSpace, c :: rest =>
    if isPySpace c then
      if prevSpace then collapseSpaces true rest
      else ' ' :: collapseSpaces true rest
    else c :: collapseSpaces false rest

/-- Strip dots and spaces on both ends (`str.strip(". ")`). -/
def stripDotsSpaces (cs : List Char) : List Char :=
  ((cs.dropWhile (fun c => c = '.' ∨ c = ' ')).reverse.dropWhile
    (fun c => c = '.' ∨ c = ' ')).reverse

/-- Model of `sanitize_filename` (src/yt2audi/utils/paths.py): ASCII filter,
invalid-character removal, whitespace collapsing, `. `-stripping,
truncation, and the `"video"` default. -/
def sanitizeFilename (s : String) (maxLength : ℕ) : String :=
  let cs := s.data.filter (fun c => c.toNat < 128)
  let cs := cs.filter (fun c => ¬ isInvalidFilenameChar c)
  let cs := collapseSpaces false cs
  let cs := stripDotsSpaces cs
  let cs := if cs.length > maxLength then cs.take (maxLength - 10) else cs
  if cs.isEmpty then "video" else String.mk cs

/-- The context fed to the filename template
(`ctx` in `Converter.get_output_path`). -/
structure TemplateCtx where
  title : String
  id : String
  uploader : String
  ext : String
deriving DecidableEq

/-- The output-side profile configuration `get_output_path` reads:
the container extension and the filename template
(`template.format(**ctx)` as a pure function; `none` = raise). -/
structure OutputConfig where
  container : String
  filenameTemplate : TemplateCtx → Option String

/-- Model of `Converter.get_output_path` (converter.py, lines 120-156). -/
def getOutputPath (outputConfig : OutputConfig) (info : Info)
    (outputDir : String) : String :=
  let title := (lookupInfo info "title").getD "video"
  let videoId := (lookupInfo info "id").getD "none"
  let uploader := (lookupInfo info "uploader").getD "unknown"
  let ctx : TemplateCtx :=
    ⟨sanitizeFilename title 255, videoId, sanitizeFilename uploader 255,
      outputConfig.container⟩
  let filename :=
    match outputConfig.filenameTemplate ctx with
    | some f => f
    | none => ctx.title ++ "_" ++ ctx.id ++ "." ++ ctx.ext
  outputDir ++ "/" ++ filename

/-! ## Processing pipeline (src/yt2audi/core/pipeline.py)

`process_one` drives one URL through
pre-check → download → conversion → finalize → transfer.  The external
collaborators are oracles in `PipeEnv`; the output records the returned
paths (or the propagated exception), the progress events delivered to
the callback, whether the download was invoked and which semaphores were
acquired, the unlink attempts, and the history store after the call. -/

/-- One payload dict passed by yt-dlp to the download progress hook. -/
structure DlHookPayload where
  status : String
  downloadedBytes : ℚ
  totalBytes : Option ℚ
  totalBytesEstimate : ℚ

/-- The `_dl_hook` of `process_one`: on a `"downloading"` payload with a
positive total (`total_bytes`, or `total_bytes_estimate` when that is
falsy), emit `downloaded / total * 50`. -/
def dlHookPercent? (d : DlHookPayload) : Option ℚ :=
  if d.status == "downloading" then
    let total :=
      match d.totalBytes with
      | some t => if t = 0 then d.totalBytesEstimate else t
      | none => d.totalBytesEstimate
    if 0 < total then some (d.downloadedBytes / total * 50) else none
  else none

/-- A progress event delivered to the caller's callback. -/
structure ProgressEvent where
  url : String
  percent : ℚ
  stage : String
deriving DecidableEq

/-- The profile fields `process_one` reads. -/
structure PipeProfile where
  output : OutputConfig
  maxFileSizeGb : ℚ
  onSizeExceed : OnSizeExceed
  usbAutoCopy : Bool
  usbSubdir : String

/-- Oracle environment for one `process_one` call:

* `extractInfo`: result of `downloader.extract_info_async` (pre-check);
* `history`: ids marked complete in the `HistoryManager` at entry;
* `fsExists` / `fsSize`: the filesystem;
* `dlHooks`: the payloads yt-dlp feeds to the download hook;
* `download`: result of `downloader.download_video_async`;
* `cvHooks`: the `(percent, stage)` pairs the converter feeds its hook;
* `convert`: result of `converter.convert_video_async`;
* `splitEnv`: the subprocess oracles for `handle_size_exceed`;
* `usbRoot`: result of `USBManager.find_best_drive`;
* `usbCopy`: result of `USBManager.copy_to_usb`. -/
structure PipeEnv where
  extractInfo : Except String Info
  history : List String
  fsExists : String → Bool
  fsSize : String → ℕ
  dlHooks : List DlHookPayload
  download : Except String (String × Info)
  cvHooks : List (ℚ × String)
  convert : Except String String
  splitEnv : SplitEnv
  usbRoot : Option String
  usbCopy : Except String (List String)

/-- Observable outcome of one `process_one` call. -/
structure ProcOut where
  result : Except String (List String)
  events : List ProgressEvent
  downloadInvoked : Bool
  downloadSemAcquired : Bool
  convertSemAcquired : Bool
  deleted : List String
  history : List String

/-- Python `video_id = info_dict.get("id")` under Python truthiness: a missing
key or an empty string is falsy. -/
def truthyId (info : Info) : Option String :=
  match lookupInfo info "id" with
  | some v => if v = "" then none else some v
  | none => none

/-- Model of `HistoryManager.mark_completed`: add the id unless already present. -/
def markCompleted (history : List String) (videoId : String) : List String :=
  if history.contains videoId then history else history ++ [videoId]

/-- Stages 1-4 of `process_one` (pipeline.py, lines 100-215): download
under the download semaphore, conversion under the convert semaphore with
cleanup of the source and thumbnail on success only, finalize through
`handle_size_exceed`, optional USB transfer (a copy failure is caught and
keeps the previous paths), and the completion history update. -/
def processOneMain (prof : PipeProfile) (env : PipeEnv)
    (url outputDir : String) : ProcOut :=
  let dlEvents := env.dlHooks.filterMap (fun d =>
    (dlHookPercent? d).map (fun p => ProgressEvent.mk url p "Downloading"))
  match env.download with
  | .error e =>
    ⟨.error e, dlEvents ++ [⟨url, 0, "Download Failed: " ++ e⟩],
      true, true, false, [], env.history⟩
  | .ok (downloadedPath, infoDict) =>
    let thumb :=
      let t := withSuffix downloadedPath ".jpg"
      if env.fsExists t then some t else none
    let cvEvents := env.cvHooks.map (fun ps =>
      ProgressEvent.mk url (50 + ps.1 * (1 / 2)) ps.2)
    match env.convert with
    | .error e =>
      ⟨.error e, dlEvents ++ cvEvents ++ [⟨url, 0, "Conversion Failed: " ++ e⟩],
        true, true, true, [], env.history⟩
    | .ok convertedPath =>
      let deleted :=
        (if env.fsExists downloadedPath then [downloadedPath] else [])
        ++ (match thumb with
            | some t => if env.fsExists t then [t] else []
            | none => [])
      let finalizeEvents := [ProgressEvent.mk url 95 "Finalizing"]
      match handleSizeExceed env.fsExists env.fsSize env.splitEnv
          convertedPath prof.maxFileSizeGb prof.onSizeExceed (some outputDir) with
      | .error e =>
        ⟨.error e, dlEvents ++ cvEvents ++ finalizeEvents, true, true, true,
          deleted, env.history⟩
      | .ok finalPaths =>
        let transferStep : List String × List ProgressEvent :=
          if prof.usbAutoCopy then
            match env.usbRoot with
            | some _ =>
              match env.usbCopy with
              | .ok copied => (copied, [⟨url, 98, "Copying to USB"⟩])
              | .error _ => (finalPaths, [⟨url, 98, "Copying to USB"⟩])
            | none => (finalPaths, [⟨url, 98, "Copying to USB"⟩])
          else (finalPaths, [])
        let historyFinal :=
          if infoDict ≠ [] then
            match truthyId infoDict with
            | some v => markCompleted env.history v
            | none => env.history
          else env.history
        ⟨.ok transferStep.1,
          dlEvents ++ cvEvents ++ finalizeEvents ++ transferStep.2
            ++ [⟨url, 100, "Complete"⟩],
          true, true, true, deleted, historyFinal⟩

/-- Model of `ProcessingPipeline.process_one` (pipeline.py, lines 54-215).  The
pre-check (stage 0): on successful metadata resolution, short-circuit on
the history store, then on the predicted path existing on disk (marking
history in that case); a pre-check exception falls through to the main
stages. -/
def processOne (prof : PipeProfile) (env : PipeEnv)
    (url outputDir : String) : ProcOut :=
  match env.extractInfo with
  | .ok infoDict =>
    let videoId := truthyId infoDict
    if (match videoId with
        | some v => env.history.contains v
        | none => false) then
      ⟨.ok [getOutputPath prof.output infoDict outputDir],
        [⟨url, 100, "Already in history"⟩], false, false, false, [],
        env.history⟩
    else
      let expectedPath := getOutputPath prof.output infoDict outputDir
      if env.fsExists expectedPath then
        ⟨.ok [expectedPath], [⟨url, 100, "Already exists"⟩],
          false, false, false, [],
          match videoId with
          | some v => markCompleted env.history v
          | none => env.history⟩
      else processOneMain prof env url outputDir
  | .error _ => processOneMain prof env url outputDir

/-! ## Batch runner (`ProcessingPipeline.run_batch`)

`asyncio.gather(..., return_exceptions=True)` gives one outcome per url;
the result dict keeps only the successes.  The dict is an
insertion-ordered association list with overwriting assignment. -/

/-- Python dict assignment `m[k] = v`: overwrite in place, else append. -/
def mapInsert (m : List (String × List String)) (k : String)
    (v : List String) : List (String × List String) :=
  if m.any (fun kv => kv.1 == k) then
    m.map (fun kv => if kv.1 == k then (k, v) else kv)
  else m ++ [(k, v)]

/-- One iteration of `run_batch`'s aggregation loop: keep a success,
drop (log) a failure. -/
def runBatchStep (outcomes : String → Except String (List String))
    (acc : List (String × List String)) (url : String) :
    List (String × List String) :=
  match outcomes url with
  | .ok res => mapInsert acc url res
  | .error _ => acc

/-- Model of `ProcessingPipeline.run_batch` (pipeline.py, lines 217-251), with
`outcomes url` the result of that url's `process_one` task. -/
def runBatch (urls : List String)
    (outcomes : String → Except String (List String)) :
    List (String × List String) :=
  urls.foldl (runBatchStep outcomes) []

/-! ## Spec-side formulas

Written from the spec's sentences, to be compared against the code
models above. -/

/-- The per-segment duration formula asserted by the spec for C3:
`max(1, (max_size_bytes * 8) / bitrate * 0.95)` where `bitrate` is the
probed bitrate, or `(file_size_bytes * 8) / duration_seconds` whenever
the probed bitrate is non-positive. -/
def specSegmentDuration (maxSizeBytes : ℤ) (probedBitrate : ℚ)
    (fileSizeBytes : ℕ) (durationSeconds : ℚ) : ℚ :=
  let bitrate :=
    if probedBitrate ≤ 0 then (fileSizeBytes * 8 : ℚ) / durationSeconds
    else probedBitrate
  max 1 ((maxSizeBytes * 8 : ℚ) / bitrate * (95 / 100))

/-- The amended bitrate derivation for C3: as the spec says when the
probed duration is positive, and the code's fixed `1_000_000` bps
fallback when both probed bitrate and duration are non-positive. -/
def specSegmentBitrate (probedBitrate : ℚ) (fileSizeBytes : ℕ)
    (durationSeconds : ℚ) : ℚ :=
  if 0 < probedBitrate then probedBitrate
  else if 0 < durationSeconds then (fileSizeBytes * 8 : ℚ) / durationSeconds
  else 1000000

/-- The video-bitrate formula asserted by the spec for C8, in exact
arithmetic: `max(500, (S * 8 / d) in kbps scaled by the reduction
factor, minus 128)`. -/
def specCompressVideoKbps (targetSizeBytes durationSeconds
    reductionFactor : ℚ) : ℚ :=
  max 500 (targetSizeBytes * 8 / durationSeconds / 1000 * reductionFactor - 128)

/-- The amended video-bitrate formula for C8: the scaled kbps value is
truncated to an integer before the 128 kbps audio reserve is
subtracted. -/
def specCompressVideoKbpsAmended (targetSizeBytes durationSeconds
    reductionFactor : ℚ) : ℤ :=
  max 500 (pyInt (targetSizeBytes * 8 / durationSeconds / 1000 * reductionFactor) - 128)

/-- A concrete subprocess environment for witnesses. -/
def witSplitEnv : SplitEnv :=
  ⟨true, some 8000000, some 100, true, ["big_part000.mp4"], true, 1000,
    true, true⟩

/-! ## Size-remediation theorems (C4, C10, C3, C8) -/

/-- C4: `handle_size_exceed` returns `[file]` unchanged whenever the
current size is at or below the ceiling, regardless of the configured
action; a file strictly above the ceiling yields `[file]` under
`warn` and `[]` under `skip`.  The environment `env` of external
invocations is arbitrary and the conclusions do not depend on it: these
branches modify no file. -/
theorem handleSizeExceed_policy (fsExists : String → Bool)
    (fsSize : String → ℕ) (env : SplitEnv) (p : String) (maxGb : ℚ)
    (outDir : Option String) :
    (getFileSizeGb fsExists fsSize p ≤ maxGb →
      ∀ action, handleSizeExceed fsExists fsSize env p maxGb action outDir
        = .ok [p])
    ∧ (maxGb < getFileSizeGb fsExists fsSize p →
        handleSizeExceed fsExists fsSize env p maxGb .warn outDir = .ok [p]
        ∧ handleSizeExceed fsExists fsSize env p maxGb .skip outDir = .ok []) := by
  constructor
  · intro h action
    simp [handleSizeExceed, h]
  · intro h
    have h' : ¬ getFileSizeGb fsExists fsSize p ≤ maxGb := not_le.mpr h
    exact ⟨by simp [handleSizeExceed, h'], by simp [handleSizeExceed, h']⟩

/-- Witness for C4 at a 3 GB file under a 4 GB ceiling (no-op fast
path, here under the `split` action) and a 1 GB ceiling (`warn` and
`skip`). -/
theorem handleSizeExceed_policy_witness :
    handleSizeExceed (fun _ => true) (fun _ => 3 * 1024 ^ 3) witSplitEnv
      "a.mp4" 4 .split none = .ok ["a.mp4"]
    ∧ handleSizeExceed (fun _ => true) (fun _ => 3 * 1024 ^ 3) witSplitEnv
      "a.mp4" 1 .warn none = .ok ["a.mp4"]
    ∧ handleSizeExceed (fun _ => true) (fun _ => 3 * 1024 ^ 3) witSplitEnv
      "a.mp4" 1 .skip none = .ok [] :=
  ⟨(handleSizeExceed_policy (fun _ => true) (fun _ => 3 * 1024 ^ 3)
      witSplitEnv "a.mp4" 4 none).1 (by norm_num [getFileSizeGb]) .split,
   ((handleSizeExceed_policy (fun _ => true) (fun _ => 3 * 1024 ^ 3)
      witSplitEnv "a.mp4" 1 none).2 (by norm_num [getFileSizeGb])).1,
   ((handleSizeExceed_policy (fun _ => true) (fun _ => 3 * 1024 ^ 3)
      witSplitEnv "a.mp4" 1 none).2 (by norm_num [getFileSizeGb])).2⟩

/-- C10: for a path that does not exist, `get_file_size_gb` returns 0,
and `handle_size_exceed` under any positive ceiling and any action
returns `[file]` instead of raising. -/
theorem handleSizeExceed_missing_file (fsExists : String → Bool)
    (fsSize : String → ℕ) (env : SplitEnv) (p : String) (maxGb : ℚ)
    (action : OnSizeExceed) (outDir : Option String)
    (hex : fsExists p = false) (hpos : 0 < maxGb) :
    getFileSizeGb fsExists fsSize p = 0
    ∧ handleSizeExceed fsExists fsSize env p maxGb action outDir = .ok [p] := by
  have hsz : getFileSizeGb fsExists fsSize p = 0 := by
    simp [getFileSizeGb, hex]
  exact ⟨hsz, by simp [handleSizeExceed, hsz, le_of_lt hpos]⟩

/-- Witness for C10: a missing file under a 4 GB ceiling with the
`compress` action. -/
theorem handleSizeExceed_missing_file_witness :
    getFileSizeGb (fun _ => false) (fun _ => 0) "gone.mp4" = 0
    ∧ handleSizeExceed (fun _ => false) (fun _ => 0) witSplitEnv "gone.mp4"
        4 .compress none = .ok ["gone.mp4"] :=
  handleSizeExceed_missing_file (fun _ => false) (fun _ => 0) witSplitEnv
    "gone.mp4" 4 .compress none rfl (by norm_num)

/-- Counterexample for C3 as stated: a 5 GB file under a 2 GB ceiling
whose probe reports neither bitrate nor duration.  The code falls back
to a fixed 1 Mbps bitrate and passes a large segment duration, while the
spec's formula (bitrate derived as `size * 8 / duration` whenever the
probed bitrate is non-positive; division by zero read as 0 in ℚ)
evaluates to the 1-second floor. -/
theorem splitVideo_segment_duration_cex :
    (splitVideo (fun _ => true) (fun _ => 5 * 1024 ^ 3)
        ⟨true, none, none, true, ["big_part000.mp4"], true, 0, true, true⟩
        "big.mp4" 2).segTime
      ≠ some (specSegmentDuration (pyInt ((2 : ℚ) * 1024 ^ 3)) 0
          (5 * 1024 ^ 3) 0) := by
  norm_num [splitVideo, specSegmentDuration, getFileSizeGb, splitBitrate,
    splitTargetDuration, pyInt]

/-- C3 amended: for an existing, oversized file with a successful probe,
the per-segment duration passed to the segmenter is
`max(1, (max_size_bytes * 8) / bitrate * 0.95)` where `bitrate` is the
probed bitrate when positive, else `size * 8 / duration` when the probed
duration is positive, else the fixed `1_000_000` bps fallback. -/
theorem splitVideo_segment_duration (fsExists : String → Bool)
    (fsSize : String → ℕ) (env : SplitEnv) (p : String) (maxGb : ℚ)
    (hex : fsExists p = true)
    (hover : maxGb < getFileSizeGb fsExists fsSize p)
    (hprobe : env.probeOk = true) :
    (splitVideo fsExists fsSize env p maxGb).segTime =
      some (max 1 ((pyInt (maxGb * 1024 ^ 3) * 8 : ℚ) /
        specSegmentBitrate (env.probeBitrate.getD 0) (fsSize p)
          (env.probeDuration.getD 0) * (95 / 100))) := by
  have h2 : ¬ getFileSizeGb fsExists fsSize p ≤ maxGb := not_le.mpr hover
  have hbr : splitBitrate (env.probeBitrate.getD 0) (fsSize p)
      (env.probeDuration.getD 0)
      = specSegmentBitrate (env.probeBitrate.getD 0) (fsSize p)
          (env.probeDuration.getD 0) := by
    by_cases hp : (env.probeBitrate.getD 0) ≤ 0
    · by_cases hd : (0 : ℚ) < env.probeDuration.getD 0
      · simp [splitBitrate, specSegmentBitrate, hp, hd, not_lt.mpr hp]
      · simp [splitBitrate, specSegmentBitrate, hp, hd, not_lt.mpr hp]
    · simp [splitBitrate, specSegmentBitrate, hp, lt_of_not_le hp]
  unfold splitVideo
  simp only [hex, hprobe, h2, if_false, Bool.true_eq_false, if_neg,
    not_false_eq_true]
  split_ifs <;> simp [splitTargetDuration, hbr]

/-- Witness for the amended C3: a 5 GB file, 2 GB ceiling, probed
bitrate 8 Mbps. -/
theorem splitVideo_segment_duration_witness :
    (splitVideo (fun _ => true) (fun _ => 5 * 1024 ^ 3) witSplitEnv
        "big.mp4" 2).segTime =
      some (max 1 ((pyInt ((2 : ℚ) * 1024 ^ 3) * 8 : ℚ) /
        specSegmentBitrate (witSplitEnv.probeBitrate.getD 0) (5 * 1024 ^ 3)
          (witSplitEnv.probeDuration.getD 0) * (95 / 100))) :=
  splitVideo_segment_duration (fun _ => true) (fun _ => 5 * 1024 ^ 3)
    witSplitEnv "big.mp4" 2 rfl (by norm_num [getFileSizeGb]) rfl

/-- Counterexample for C8 as stated: target 1 GB over a 1000 s duration
with the 0.8 reduction factor.  The code truncates the scaled kbps value
to an integer before subtracting the 128 kbps audio reserve, so the
`-b:v` value it passes (6743 kbps) differs from the spec's exact-valued
formula (6743.9476736 kbps). -/
theorem compressToSize_bitrate_cex :
    ((compressToSize (fun _ => true)
        ⟨true, none, none, true, [], true, 1000, true, true⟩
        "in.mp4" 1 (8 / 10) none).videoKbps.map (fun z => (z : ℚ)))
      ≠ some (specCompressVideoKbps ((1 : ℚ) * 1024 ^ 3) 1000 (8 / 10)) := by
  norm_num [compressToSize, compressVideoKbps, specCompressVideoKbps, pyInt]

/-- C8 amended: for an existing file with a successfully probed nonzero
duration, the video bitrate passed to ffmpeg is
`max(500, int((S * 8 / d) / 1000 * reduction) - 128)` kbps — the scaled
kbps value is truncated to an integer before the 128 kbps audio reserve
is subtracted — and the audio bitrate is fixed at 128 kbps. -/
theorem compressToSize_bitrates (fsExists : String → Bool) (env : SplitEnv)
    (p : String) (targetGb r : ℚ) (outPath : Option String)
    (hex : fsExists p = true) (hprobe : env.cprobeOk = true)
    (hdur : env.cprobeDuration ≠ 0) :
    (compressToSize fsExists env p targetGb r outPath).videoKbps =
      some (specCompressVideoKbpsAmended (targetGb * 1024 ^ 3)
        env.cprobeDuration r)
    ∧ (compressToSize fsExists env p targetGb r outPath).audioKbps
      = some 128 := by
  have hv : compressVideoKbps targetGb env.cprobeDuration r =
      specCompressVideoKbpsAmended (targetGb * 1024 ^ 3)
        env.cprobeDuration r := rfl
  unfold compressToSize
  simp only [hex, hprobe, hdur, Bool.true_eq_false, if_neg, if_false,
    not_false_eq_true]
  split_ifs <;> simp [hv]

/-- Witness for the amended C8: target 1 GB, duration 1000 s,
reduction 0.8. -/
theorem compressToSize_bitrates_witness :
    (compressToSize (fun _ => true) witSplitEnv "in.mp4" 1 (8 / 10)
        none).videoKbps =
      some (specCompressVideoKbpsAmended ((1 : ℚ) * 1024 ^ 3)
        witSplitEnv.cprobeDuration (8 / 10))
    ∧ (compressToSize (fun _ => true) witSplitEnv "in.mp4" 1 (8 / 10)
        none).audioKbps = some 128 :=
  compressToSize_bitrates (fun _ => true) witSplitEnv "in.mp4" 1 (8 / 10)
    none rfl rfl (by decide)

/-! ## Encoder-selection theorems (C5, C7) -/

/-- A `find?` over an append returns the head of the suffix once the prefix all fails. -/
lemma find?_append_first {α : Type} (p : α → Bool) (l₁ l₂ : List α) (e : α)
    (h₁ : ∀ x ∈ l₁, p x = false) (he : p e = true) :
    (l₁ ++ e :: l₂).find? p = some e := by
  induction l₁ with
  | nil => simp [List.find?_cons_of_pos, he]
  | cons a l ih =>
    have ha : p a = false := h₁ a (by simp)
    rw [List.cons_append, List.find?_cons_of_neg _ (by simp [ha])]
    exact ih (fun x hx => h₁ x (by simp [hx]))

/-- The GPU-derived part of the available set never produces the
software encoder. -/
lemma gpu_candidate_ne_libx264 (check : String → Bool) (gpu : GPUInfo) :
    (if gpu.hasEncoder then
      match vendorEncoderMap gpu.vendor with
      | some enc => if check enc.value then some enc else none
      | none => none
     else none) ≠ some EncoderType.libx264 := by
  rcases gpu with ⟨v, n, h⟩
  cases v <;> cases h <;> by_cases hc : check "h264_nvenc" = true <;>
    by_cases hc2 : check "h264_amf" = true <;>
    by_cases hc3 : check "h264_qsv" = true <;>
    simp [vendorEncoderMap, EncoderType.value, hc, hc2, hc3]

/-- The encoder `libx264` is in the available set exactly when the ffmpeg capability
check confirms it. -/
lemma libx264_mem_availableEncoders (gpus : List GPUInfo)
    (check : String → Bool) :
    EncoderType.libx264 ∈ availableEncoders gpus check ↔
      check "libx264" = true := by
  unfold availableEncoders
  constructor
  · intro h
    rcases List.mem_append.mp h with h | h
    · exfalso
      rcases List.mem_filterMap.mp h with ⟨gpu, _, hg⟩
      exact gpu_candidate_ne_libx264 check gpu hg
    · by_cases hc : check "libx264" = true
      · exact hc
      · rw [EncoderType.value] at h
        simp [hc] at h
  · intro hc
    refine List.mem_append.mpr (Or.inr ?_)
    rw [EncoderType.value]
    simp [hc]

/-- C5: `select_best_encoder` returns the first priority-list entry
present in the confirmed-available set; when no entry is available but
the software encoder is confirmed, it returns the software encoder. -/
theorem selectBestEncoder_priority_resolution (gpus : List GPUInfo)
    (check : String → Bool) :
    (∀ (l₁ l₂ : List EncoderType) (e : EncoderType),
        e ∈ availableEncoders gpus check →
        (∀ x ∈ l₁, x ∉ availableEncoders gpus check) →
        selectBestEncoder (l₁ ++ e :: l₂) gpus check = .ok e)
    ∧ (∀ priorityList : List EncoderType,
        (∀ x ∈ priorityList, x ∉ availableEncoders gpus check) →
        check "libx264" = true →
        selectBestEncoder priorityList gpus check
          = .ok EncoderType.libx264) := by
  constructor
  · intro l₁ l₂ e he hno
    simp only [selectBestEncoder]
    rw [find?_append_first _ l₁ l₂ e (fun x hx => by simp [hno x hx])
      (by simp [he])]
  · intro pl hno hsw
    simp only [selectBestEncoder]
    have hf : pl.find?
        (fun e => decide (e ∈ availableEncoders gpus check)) = none := by
      apply List.find?_eq_none.mpr
      intro x hx
      simp [hno x hx]
    rw [hf]
    simp [(libx264_mem_availableEncoders gpus check).mpr hsw]

/-- Witness for C5: no GPU detected, only the software encoder confirmed;
`select_best_encoder([nvenc, libx264])` returns `libx264` (here through
the priority list, whose first available entry it is). -/
theorem selectBestEncoder_priority_resolution_witness :
    selectBestEncoder [EncoderType.nvencH264, EncoderType.libx264] []
      (fun s => s == "libx264") = .ok EncoderType.libx264 :=
  (selectBestEncoder_priority_resolution []
      (fun s => s == "libx264")).1 [EncoderType.nvencH264] []
    EncoderType.libx264 (by decide) (by decide)

/-- C7: when no priority-list entry is available and the software
encoder cannot be confirmed, `select_best_encoder` fails with the
encoder-unavailable error. -/
theorem selectBestEncoder_total_failure (gpus : List GPUInfo)
    (check : String → Bool) (priorityList : List EncoderType)
    (hno : ∀ x ∈ priorityList, x ∉ availableEncoders gpus check)
    (hsw : check "libx264" = false) :
    selectBestEncoder priorityList gpus check =
      .error "No video encoder available (FFmpeg not found or misconfigured)" := by
  simp only [selectBestEncoder]
  have hf : priorityList.find?
      (fun e => decide (e ∈ availableEncoders gpus check)) = none := by
    apply List.find?_eq_none.mpr
    intro x hx
    simp [hno x hx]
  rw [hf]
  have hmem : ¬ EncoderType.libx264 ∈ availableEncoders gpus check := by
    rw [libx264_mem_availableEncoders]
    simp [hsw]
  simp [hmem]

/-- Witness for C7: the capability check always fails. -/
theorem selectBestEncoder_total_failure_witness :
    selectBestEncoder [EncoderType.nvencH264] [] (fun _ => false) =
      .error "No video encoder available (FFmpeg not found or misconfigured)" :=
  selectBestEncoder_total_failure [] (fun _ => false)
    [EncoderType.nvencH264] (by decide) rfl

/-! ## Path-prediction determinism (C9) -/

/-- C9: `get_output_path` is a pure function of the info-dict contents
it reads (`title`, `id`, `uploader`), the profile configuration, and the
output directory: two calls whose info dicts agree on those lookups
return identical paths, whatever else the dicts contain and however
their entries are ordered. -/
theorem getOutputPath_deterministic (cfg : OutputConfig)
    (outputDir : String) (d₁ d₂ : Info)
    (htitle : lookupInfo d₁ "title" = lookupInfo d₂ "title")
    (hid : lookupInfo d₁ "id" = lookupInfo d₂ "id")
    (hup : lookupInfo d₁ "uploader" = lookupInfo d₂ "uploader") :
    getOutputPath cfg d₁ outputDir = getOutputPath cfg d₂ outputDir := by
  simp only [getOutputPath, htitle, hid, hup]

/-- Witness for C9: the same metadata contents in two different entry
orders (with an extra unread key) predict byte-identical paths. -/
theorem getOutputPath_deterministic_witness :
    getOutputPath ⟨"mp4", fun _ => none⟩
      [("title", "My Video"), ("id", "abc123"), ("uploader", "chan")] "out"
    = getOutputPath ⟨"mp4", fun _ => none⟩
      [("uploader", "chan"), ("id", "abc123"), ("title", "My Video"),
        ("ext", "webm")] "out" :=
  getOutputPath_deterministic ⟨"mp4", fun _ => none⟩ "out"
    [("title", "My Video"), ("id", "abc123"), ("uploader", "chan")]
    [("uploader", "chan"), ("id", "abc123"), ("title", "My Video"),
      ("ext", "webm")] rfl rfl rfl

/-! ## Pipeline pre-check theorems (C1) -/

/-- C1: when the pre-check resolves metadata carrying a (truthy)
content id, `process_one` short-circuits: if the id is complete in
history it reports 100%/"Already in history" and returns the single
predicted output path; otherwise, if the predicted path exists on disk,
it marks the id complete in history, reports 100%/"Already exists", and
returns that path.  In both cases the downloader is not invoked and
neither the download nor the convert semaphore is acquired. -/
theorem processOne_precheck (prof : PipeProfile) (env : PipeEnv)
    (url outputDir : String) (info : Info) (v : String)
    (hx : env.extractInfo = .ok info)
    (hid : lookupInfo info "id" = some v) (hv : v ≠ "") :
    (env.history.contains v = true →
      processOne prof env url outputDir =
        ⟨.ok [getOutputPath prof.output info outputDir],
          [⟨url, 100, "Already in history"⟩], false, false, false, [],
          env.history⟩)
    ∧ (env.history.contains v = false →
        env.fsExists (getOutputPath prof.output info outputDir) = true →
        processOne prof env url outputDir =
          ⟨.ok [getOutputPath prof.output info outputDir],
            [⟨url, 100, "Already exists"⟩], false, false, false, [],
            env.history ++ [v]⟩) := by
  have hvid : truthyId info = some v := by simp [truthyId, hid, hv]
  constructor
  · intro hhist
    have hmem : v ∈ env.history := by simpa using hhist
    simp [processOne, hx, hvid, hhist, hmem]
  · intro hhist hfs
    have hmem : v ∉ env.history := by simpa using hhist
    simp [processOne, hx, hvid, hhist, hmem, hfs, markCompleted]

/-- Concrete profile for pipeline witnesses. -/
def witProfile : PipeProfile :=
  ⟨⟨"mp4", fun _ => none⟩, 4, .warn, false, "videos"⟩

/-- Concrete info dict for pipeline witnesses. -/
def witInfo : Info := [("id", "abc123"), ("title", "My Video")]

/-- Environment for the C1 witness: the id is already in history. -/
def witEnvHistory : PipeEnv :=
  ⟨.ok witInfo, ["abc123"], fun _ => false, fun _ => 0, [],
    .error "not downloaded", [], .error "not converted", witSplitEnv,
    none, .error "no usb"⟩

/-- Witness for C1: an id already in history short-circuits with the
predicted path, no download, no semaphores. -/
theorem processOne_precheck_witness :
    processOne witProfile witEnvHistory "u" "out" =
      ⟨.ok [getOutputPath witProfile.output witInfo "out"],
        [⟨"u", 100, "Already in history"⟩], false, false, false, [],
        witEnvHistory.history⟩ :=
  (processOne_precheck witProfile witEnvHistory "u" "out" witInfo "abc123"
    rfl rfl (by decide)).1 rfl

/-! ## Cleanup-on-success-only theorems (C6) -/

/-- The two C6 conjuncts hold trivially for any outcome that never
entered the conversion stage. -/
lemma cleanup_shortCircuit {env : PipeEnv} {out : ProcOut}
    (hsem : out.convertSemAcquired = false) (hdel : out.deleted = []) :
    (out.convertSemAcquired = true →
      ∀ e, env.convert = .error e →
        out.deleted = [] ∧ out.result = .error e)
    ∧ (out.deleted ≠ [] → ∃ cp, env.convert = .ok cp) := by
  constructor
  · intro h
    rw [hsem] at h
    cases h
  · intro h
    exact absurd hdel h

/-- C6 for the main stages: with the convert semaphore acquired, a
failing conversion deletes nothing and propagates the error, and any
deletion implies the conversion succeeded. -/
lemma processOneMain_cleanup (prof : PipeProfile) (env : PipeEnv)
    (url outputDir : String) :
    ((processOneMain prof env url outputDir).convertSemAcquired = true →
      ∀ e, env.convert = .error e →
        (processOneMain prof env url outputDir).deleted = []
        ∧ (processOneMain prof env url outputDir).result = .error e)
    ∧ ((processOneMain prof env url outputDir).deleted ≠ [] →
        ∃ cp, env.convert = .ok cp) := by
  cases hdl : env.download with
  | error e =>
    exact cleanup_shortCircuit (by simp [processOneMain, hdl])
      (by simp [processOneMain, hdl])
  | ok pr =>
    rcases pr with ⟨dlPath, infoD⟩
    cases hcv : env.convert with
    | error e =>
      constructor
      · intro _ e' he'
        injection he' with he''
        subst he''
        exact ⟨by simp [processOneMain, hdl, hcv],
          by simp [processOneMain, hdl, hcv]⟩
      · intro hdel
        exact absurd (by simp [processOneMain, hdl, hcv]) hdel
    | ok cp =>
      constructor
      · intro _ e' he'
        cases he'
      · intro _
        exact ⟨cp, rfl⟩

/-- C6: in `process_one`, the downloaded file and its same-stem
thumbnail are deleted only when the conversion succeeds; whenever the
conversion raises, nothing is deleted and the error propagates as the
item's result. -/
theorem processOne_cleanup_on_success_only (prof : PipeProfile)
    (env : PipeEnv) (url outputDir : String) :
    ((processOne prof env url outputDir).convertSemAcquired = true →
      ∀ e, env.convert = .error e →
        (processOne prof env url outputDir).deleted = []
        ∧ (processOne prof env url outputDir).result = .error e)
    ∧ ((processOne prof env url outputDir).deleted ≠ [] →
        ∃ cp, env.convert = .ok cp) := by
  cases hx : env.extractInfo with
  | error e =>
    have heq : processOne prof env url outputDir
        = processOneMain prof env url outputDir := by
      simp [processOne, hx]
    rw [heq]
    exact processOneMain_cleanup prof env url outputDir
  | ok info =>
    cases hvid : truthyId info with
    | some v =>
      cases hcont : env.history.contains v with
      | true =>
        have hmem : v ∈ env.history := by simpa using hcont
        have heq : processOne prof env url outputDir =
            ⟨.ok [getOutputPath prof.output info outputDir],
              [⟨url, 100, "Already in history"⟩], false, false, false, [],
              env.history⟩ := by
          simp [processOne, hx, hvid, hmem]
        rw [heq]
        exact cleanup_shortCircuit rfl rfl
      | false =>
        have hmem : v ∉ env.history := by simpa using hcont
        cases hfs : env.fsExists (getOutputPath prof.output info outputDir) with
        | true =>
          have heq : processOne prof env url outputDir =
              ⟨.ok [getOutputPath prof.output info outputDir],
                [⟨url, 100, "Already exists"⟩], false, false, false, [],
                markCompleted env.history v⟩ := by
            simp [processOne, hx, hvid, hmem, hfs]
          rw [heq]
          exact cleanup_shortCircuit rfl rfl
        | false =>
          have heq : processOne prof env url outputDir
              = processOneMain prof env url outputDir := by
            simp [processOne, hx, hvid, hmem, hfs]
          rw [heq]
          exact processOneMain_cleanup prof env url outputDir
    | none =>
      cases hfs : env.fsExists (getOutputPath prof.output info outputDir) with
      | true =>
        have heq : processOne prof env url outputDir =
            ⟨.ok [getOutputPath prof.output info outputDir],
              [⟨url, 100, "Already exists"⟩], false, false, false, [],
              env.history⟩ := by
          simp [processOne, hx, hvid, hfs]
        rw [heq]
        exact cleanup_shortCircuit rfl rfl
      | false =>
        have heq : processOne prof env url outputDir
            = processOneMain prof env url outputDir := by
          simp [processOne, hx, hvid, hfs]
        rw [heq]
        exact processOneMain_cleanup prof env url outputDir

/-- Environment for the C6 witness: the pre-check raises, the download
succeeds, and the conversion fails. -/
def witEnvConvertFail : PipeEnv :=
  ⟨.error "no metadata", [], fun _ => true, fun _ => 0, [],
    .ok ("tmp/video.webm", witInfo), [], .error "encoder crashed",
    witSplitEnv, none, .error "no usb"⟩

/-- Witness for C6: a failed conversion deletes nothing and the error is
the item's result. -/
theorem processOne_cleanup_on_success_only_witness :
    (processOne witProfile witEnvConvertFail "u" "out").deleted = []
    ∧ (processOne witProfile witEnvConvertFail "u" "out").result
      = .error "encoder crashed" :=
  (processOne_cleanup_on_success_only witProfile witEnvConvertFail
    "u" "out").1 rfl "encoder crashed" rfl

/-! ## Batch fault-isolation theorems (C2) -/

/-- Membership after a dict assignment: the new pair or an old one. -/
lemma mem_mapInsert_elim {m : List (String × List String)} {k : String}
    {v : List String} {kv : String × List String}
    (h : kv ∈ mapInsert m k v) : kv = (k, v) ∨ kv ∈ m := by
  unfold mapInsert at h
  split_ifs at h with hc
  · rcases List.mem_map.mp h with ⟨q, hq, hfq⟩
    by_cases hqk : (q.1 == k) = true
    · left
      rw [if_pos hqk] at hfq
      exact hfq.symm
    · right
      rw [if_neg hqk] at hfq
      rwa [hfq] at hq
  · rcases List.mem_append.mp h with h | h
    · exact Or.inr h
    · left
      simpa using h

/-- The assigned pair is in the dict after assignment. -/
lemma mem_mapInsert_self (m : List (String × List String)) (k : String)
    (v : List String) : (k, v) ∈ mapInsert m k v := by
  unfold mapInsert
  split_ifs with hc
  · rcases List.any_eq_true.mp hc with ⟨q, hq, hqk⟩
    exact List.mem_map.mpr ⟨q, hq, by simp [hqk]⟩
  · exact List.mem_append.mpr (Or.inr (by simp))

/-- Assignment under a different key does not affect membership. -/
lemma mem_mapInsert_ne {m : List (String × List String)} {k u : String}
    {v r : List String} (h : u ≠ k) :
    (u, r) ∈ mapInsert m k v ↔ (u, r) ∈ m := by
  unfold mapInsert
  split_ifs with hc
  · constructor
    · intro hm
      rcases List.mem_map.mp hm with ⟨q, hq, hfq⟩
      by_cases hqk : (q.1 == k) = true
      · rw [if_pos hqk] at hfq
        exact absurd (congrArg Prod.fst hfq).symm h
      · rw [if_neg hqk] at hfq
        rwa [hfq] at hq
    · intro hm
      refine List.mem_map.mpr ⟨(u, r), hm, ?_⟩
      simp [h]
  · rw [List.mem_append]
    constructor
    · rintro (hm | hm)
      · exact hm
      · exact absurd (by simpa using congrArg Prod.fst (List.mem_singleton.mp hm)) h
    · exact Or.inl

/-- Aggregation-loop invariant for `run_batch`: starting from an
accumulator whose entries record outcomes, a pair is in the final dict
exactly when its url succeeded with that value and was either in the
batch or already recorded. -/
lemma runBatch_go_mem (outcomes : String → Except String (List String)) :
    ∀ (urls : List String) (acc : List (String × List String)),
      (∀ kv ∈ acc, outcomes kv.1 = .ok kv.2) →
      ∀ u r, ((u, r) ∈ urls.foldl (runBatchStep outcomes) acc ↔
        (outcomes u = .ok r ∧ (u ∈ urls ∨ (u, r) ∈ acc))) := by
  intro urls
  induction urls with
  | nil =>
    intro acc hacc u r
    simp only [List.foldl_nil, List.not_mem_nil, false_or]
    exact ⟨fun h => ⟨hacc _ h, h⟩, fun h => h.2⟩
  | cons w rest ih =>
    intro acc hacc u r
    rw [List.foldl_cons]
    cases how : outcomes w with
    | error e =>
      have hstep : runBatchStep outcomes acc w = acc := by
        simp [runBatchStep, how]
      rw [hstep, ih acc hacc u r]
      constructor
      · rintro ⟨h1, h2 | h2⟩
        · exact ⟨h1, Or.inl (List.mem_cons.mpr (Or.inr h2))⟩
        · exact ⟨h1, Or.inr h2⟩
      · rintro ⟨h1, h2 | h2⟩
        · rcases List.mem_cons.mp h2 with h2 | h2
          · subst h2
            rw [how] at h1
            cases h1
          · exact ⟨h1, Or.inl h2⟩
        · exact ⟨h1, Or.inr h2⟩
    | ok rw' =>
      have hstep : runBatchStep outcomes acc w = mapInsert acc w rw' := by
        simp [runBatchStep, how]
      rw [hstep]
      have hacc' : ∀ kv ∈ mapInsert acc w rw', outcomes kv.1 = .ok kv.2 := by
        intro kv hkv
        rcases mem_mapInsert_elim hkv with h | h
        · subst h
          exact how
        · exact hacc _ h
      rw [ih (mapInsert acc w rw') hacc' u r]
      constructor
      · rintro ⟨h1, h2 | h2⟩
        · exact ⟨h1, Or.inl (List.mem_cons.mpr (Or.inr h2))⟩
        · by_cases huw : u = w
          · exact ⟨h1, Or.inl (List.mem_cons.mpr (Or.inl huw))⟩
          · exact ⟨h1, Or.inr ((mem_mapInsert_ne huw).mp h2)⟩
      · rintro ⟨h1, h2 | h2⟩
        · rcases List.mem_cons.mp h2 with h2 | h2
          · subst h2
            rw [how] at h1
            injection h1 with h1'
            subst h1'
            exact ⟨how, Or.inr (mem_mapInsert_self acc u _)⟩
          · exact ⟨h1, Or.inl h2⟩
        · refine ⟨h1, Or.inr ?_⟩
          by_cases huw : u = w
          · subst huw
            rw [how] at h1
            injection h1 with h1'
            subst h1'
            exact mem_mapInsert_self acc u _
          · exact (mem_mapInsert_ne huw).mpr h2

/-- C2: `run_batch` returns a mapping that contains a url (with its
path list) exactly when that url is in the batch and its `process_one`
outcome succeeded with that list: failed urls are omitted, no url's
presence depends on any other url's outcome, and the aggregation is
total (no per-item failure escapes it). -/
theorem runBatch_fault_isolation (urls : List String)
    (outcomes : String → Except String (List String))
    (url : String) (paths : List String) :
    (url, paths) ∈ runBatch urls outcomes ↔
      (url ∈ urls ∧ outcomes url = .ok paths) := by
  unfold runBatch
  rw [runBatch_go_mem outcomes urls [] (by simp) url paths]
  simp [and_comm]

/-- The per-url outcomes of the C2 witness batch: the middle url's
download throws, the others succeed. -/
def witOutcomes : String → Except String (List String) :=
  fun u => if u == "u2" then .error "download failed" else .ok [u ++ ".mp4"]

/-- Witness for C2, mirroring the spec's three-url example: the batch
result contains url 1 (and url 3) and omits the failing url 2. -/
theorem runBatch_fault_isolation_witness :
    ("u1", ["u1.mp4"]) ∈ runBatch ["u1", "u2", "u3"] witOutcomes
    ∧ ¬ ("u2", ["u2.mp4"]) ∈ runBatch ["u1", "u2", "u3"] witOutcomes
    ∧ ("u3", ["u3.mp4"]) ∈ runBatch ["u1", "u2", "u3"] witOutcomes :=
  ⟨(runBatch_fault_isolation ["u1", "u2", "u3"] witOutcomes "u1"
      ["u1.mp4"]).mpr ⟨by decide, rfl⟩,
   fun h => by
      have := ((runBatch_fault_isolation ["u1", "u2", "u3"] witOutcomes "u2"
        ["u2.mp4"]).mp h).2
      simp [witOutcomes] at this,
   (runBatch_fault_isolation ["u1", "u2", "u3"] witOutcomes "u3"
      ["u3.mp4"]).mpr ⟨by decide, rfl⟩⟩

end YT2Audi
